import Mathlib

/-!
Shallow embedding of the core of an EncFS-style encrypting stackable filesystem,
translated from the C++ sources: MACFileIO.cpp, CipherFileIO.cpp, ConfigVar.cpp,
StreamNameIO.cpp, BlockNameIO.cpp, NullNameIO.cpp, DirNode.cpp, Context.cpp.

Conventions of the embedding: machine integers are Nat or Int with explicit
masking; on nonnegative values `x & 0xff` is `x % 256`, `x >> k` is `x / 2 ^ k`,
and `a | b` on disjoint bit ranges is `+` (where operands may overlap, `Nat.lor`
and `Nat.land` are used directly).  C `off_t` arithmetic that may go negative is
on Int with truncating division `Int.tdiv`.  Byte buffers are `List Nat` with
entries below 256.  Fallible code returns `Except` or `Option`.  The primitive
cipher library (OpenSSL wrappers) and the base64 module are external to the
sources; following the specification they are modelled as abstract structures
providing block/stream encode-decode pairs, a fixed-length MAC and the base
conversion, with their interface laws as fields.
-/

/-- Linux errno value for EBADMSG, returned as `-EBADMSG`. -/
def EBADMSG : Int := 74

/-- Linux errno value for EPERM. -/
def EPERM : Int := 1

/-- Linux errno value for EBUSY. -/
def EBUSY : Int := 16

/-- Linux errno value for ENOENT. -/
def ENOENT : Int := 2

/-! ## MACFileIO.cpp offset translation (claim C8) -/

/-- Helper `roundUpDivide(numerator, denominator)` from MACFileIO.cpp:
`(numerator + denominator - 1) / denominator` with C truncating division. -/
def roundUpDivide (numerator denominator : Int) : Int :=
  (numerator + denominator - 1).tdiv denominator

/-- MACFileIO.cpp `locWithHeader`: translate an offset in the unframed data
stream to the offset in the MAC-framed backing file,
`offset + roundUpDivide(offset, blockSize - headerSize) * headerSize`. -/
def locWithHeader (offset blockSize headerSize : Int) : Int :=
  offset + roundUpDivide offset (blockSize - headerSize) * headerSize

/-- MACFileIO.cpp `locWithoutHeader`:
`offset - roundUpDivide(offset, blockSize) * headerSize`. -/
def locWithoutHeader (offset blockSize headerSize : Int) : Int :=
  offset - roundUpDivide offset blockSize * headerSize

/-! ## ConfigVar.cpp variable-length integer framing (claim C9) -/

/-- ConfigVar.cpp `writeInt`: the five digit bytes before stripping.  `digit[0]`
holds bits 28..31 (mask 0xf0000000), `digit[1]` bits 21..27 (mask 0x0fe00000),
`digit[2]` bits 14..20, `digit[3]` bits 7..13, each with the continuation bit
0x80 ored in; `digit[4]` is `val & 0x7f`.  `val` is the 32-bit two's-complement
bit pattern of the C int argument, so `val < 2 ^ 32`. -/
def writeIntDigits (val : Nat) : List Nat :=
  [0x80 + val / 2 ^ 28 % 2 ^ 4,
   0x80 + val / 2 ^ 21 % 2 ^ 7,
   0x80 + val / 2 ^ 14 % 2 ^ 7,
   0x80 + val / 2 ^ 7 % 2 ^ 7,
   val % 2 ^ 7]

/-- ConfigVar.cpp `writeInt` stripping loop: `while (digit[start] == 0x80) ++start;`.
The final digit never equals 0x80, so the loop always stops. -/
def stripLeading80 : List Nat → List Nat
  | [] => []
  | b :: rest => if b = 0x80 then stripLeading80 rest else b :: rest

/-- ConfigVar.cpp `writeInt`: emit the digit bytes with all leading 0x80 bytes
stripped. -/
def writeInt (val : Nat) : List Nat :=
  stripLeading80 (writeIntDigits val)

/-- ConfigVar.cpp `readInt` accumulation loop:
`do { tmp = buf[offset++]; value = (value << 7) | (tmp & 0x7f); } while (highBitSet && offset < bytes)`.
`value` is a C int; the bit pattern is kept modulo 2 ^ 32.  Bytes come from a
std::string, hence are below 256, and `tmp & 0x80` is nonzero exactly when
`128 ≤ b`. -/
def readIntLoop : List Nat → Nat → Nat
  | [], value => value
  | b :: rest, value =>
      let value2 := (value * 2 ^ 7 + b % 2 ^ 7) % 2 ^ 32
      if 128 ≤ b then readIntLoop rest value2 else value2

/-- ConfigVar.cpp `readInt`: `rAssert(offset < bytes)` on entry, then the
accumulation loop, then `rAssert(value >= 0)` which fails exactly when the
32-bit pattern has the sign bit set. -/
def readInt (buf : List Nat) : Except String Nat :=
  match buf with
  | [] => .error "rAssert offset < bytes failed"
  | _ :: _ =>
      let value := readIntLoop buf 0
      if value < 2 ^ 31 then .ok value else .error "rAssert value >= 0 failed"

/-! ## MACFileIO.cpp per-block MAC framing (claim C1) -/

/-- Mount-global parameters of the MAC file layer together with the primitive
MAC.  `mac64` models `cipher->MAC_64(data, len, key)` with the key folded in;
the specification assumes the primitive cipher provides a fixed-length MAC. -/
structure MacConfig where
  macBytes : Nat
  randBytes : Nat
  allowHoles : Bool
  warnOnly : Bool
  mac64 : List Nat → Nat

/-- MACFileIO.cpp `writeOneBlock` at block granularity: the framed block written
to the backing file.  The header area is zeroed, the payload copied behind it,
`rand` stands for the `randBytes` bytes produced by `cipher->randomize`, the MAC
is computed over `newReq.data + macBytes` for `dataLen + randBytes` bytes, and
its low `macBytes` bytes are stored little-endian at the front
(`data[i] = mac & 0xff; mac >>= 8`). -/
def macWriteOneBlock (c : MacConfig) (rand payload : List Nat) : List Nat :=
  let mac := c.mac64 (rand ++ payload)
  (List.range c.macBytes).map (fun i => mac / 2 ^ (8 * i) % 256) ++ rand ++ payload

/-- MACFileIO.cpp `readOneBlock` at block granularity: `stored` is the framed
block delivered by `base->read` (so `readSize = stored.length`).  `skipBlock`
starts true; with `allowHoles` it is cleared when any read byte is nonzero,
otherwise it is cleared when `macBytes > 0`.  When more than the header was
read and the block is not skipped, the MAC is recomputed over
`tmp.data + macBytes` and compared against the stored prefix with
`fail |= (test & stored)` per byte; `fail > 0` without `warnOnly` yields
`-EBADMSG`, otherwise the payload behind the header is returned. -/
def macReadOneBlock (c : MacConfig) (stored : List Nat) : Except Int (List Nat) :=
  let headerSize := c.macBytes + c.randBytes
  let skipBlock := if c.allowHoles then stored.all (· == 0) else c.macBytes == 0
  if headerSize < stored.length then
    if skipBlock then .ok (stored.drop headerSize)
    else
      let mac := c.mac64 (stored.drop c.macBytes)
      let fail := (List.range c.macBytes).any
        (fun i => Nat.land (mac / 2 ^ (8 * i) % 256) (stored.getD i 0) != 0)
      if fail && !c.warnOnly then .error (-EBADMSG)
      else .ok (stored.drop headerSize)
  else .ok []

/-! ## CipherFileIO.cpp block transforms and file IV header (claims C3, C4, C7) -/

/-- Primitive cipher operations as consumed by CipherFileIO, key folded in.
Modelled from the spec: the primitive symmetric cipher library is external and
assumed to provide block-mode and stream-mode encode and decode. -/
structure CipherOps where
  blockEnc : List Nat → Nat → List Nat
  blockDec : List Nat → Nat → List Nat
  streamEnc : List Nat → Nat → List Nat
  streamDec : List Nat → Nat → List Nat

/-- Mount-global switches of the cipher file layer. -/
structure CipherFileCfg where
  blockSize : Nat
  haveHeader : Bool
  reverse : Bool
  allowHoles : Bool

/-- CipherFileIO.cpp `streamRead`: in reverse mode the buffer is stream
*encoded*; in forward mode the function body ends without a return statement
(the `streamDecode` call present in the write-direction twin is missing), so
both the success flag and the delivered bytes are undefined, modelled as
`none`. -/
def cfStreamRead (C : CipherOps) (cfg : CipherFileCfg) (buf : List Nat) (iv : Nat) :
    Option (List Nat) :=
  if cfg.reverse then some (C.streamEnc buf iv) else none

/-- CipherFileIO.cpp `blockRead`: reverse mode encodes; forward mode with
`allowHoles` returns an all-zero buffer unchanged without calling the cipher,
and otherwise block-decodes. -/
def cfBlockRead (C : CipherOps) (cfg : CipherFileCfg) (buf : List Nat) (iv : Nat) :
    List Nat :=
  if cfg.reverse then C.blockEnc buf iv
  else if cfg.allowHoles && buf.all (· == 0) then buf
  else C.blockDec buf iv

/-- CipherFileIO.cpp `streamWrite`: forward mode stream-encodes, reverse mode
stream-decodes. -/
def cfStreamWrite (C : CipherOps) (cfg : CipherFileCfg) (buf : List Nat) (iv : Nat) :
    List Nat :=
  if !cfg.reverse then C.streamEnc buf iv else C.streamDec buf iv

/-- CipherFileIO.cpp `blockWrite`: forward mode block-encodes, reverse mode
block-decodes. -/
def cfBlockWrite (C : CipherOps) (cfg : CipherFileCfg) (buf : List Nat) (iv : Nat) :
    List Nat :=
  if !cfg.reverse then C.blockEnc buf iv else C.blockDec buf iv

/-- CipherFileIO.cpp `readOneBlock`: `stored` is what `base->read` returned at
the (possibly header-shifted) offset, `blockNum = req.offset / blockSize`, and
the per-call IV is `blockNum XOR fileIV`.  A full block goes through
`blockRead`; a shorter tail goes through `streamRead`, whose forward-mode
result is undefined (`none`).  The file IV is assumed initialized (the lazy
`initHeader` call is modelled separately). -/
def cfReadOneBlock (C : CipherOps) (cfg : CipherFileCfg) (fileIV : Nat)
    (reqOffset : Nat) (stored : List Nat) : Option (Except Int (List Nat)) :=
  let blockNum := reqOffset / cfg.blockSize
  if stored.length = 0 then some (.ok [])
  else if stored.length ≠ cfg.blockSize then
    match cfStreamRead C cfg stored (blockNum ^^^ fileIV) with
    | some buf => some (.ok buf)
    | none => none
  else some (.ok (cfBlockRead C cfg stored (blockNum ^^^ fileIV)))

/-- CipherFileIO.cpp `writeOneBlock`: with a per-file header in reverse mode the
write is rejected with `-EPERM` before touching anything; otherwise the payload
is transformed (stream for a tail, block for a full block, IV
`blockNum XOR fileIV`) and written to `base` at the offset shifted by
HEADER_SIZE when a header is present.  `base` is the backing file as an
association of offsets to written byte runs; the result pairs the returned
code with the backing state after the call. -/
def cfWriteOneBlock (C : CipherOps) (cfg : CipherFileCfg) (fileIV : Nat)
    (base : List (Nat × List Nat)) (reqOffset : Nat) (payload : List Nat) :
    Int × List (Nat × List Nat) :=
  if cfg.haveHeader && cfg.reverse then (-EPERM, base)
  else
    let blockNum := reqOffset / cfg.blockSize
    let iv := blockNum ^^^ fileIV
    let data := if payload.length ≠ cfg.blockSize then cfStreamWrite C cfg payload iv
                else cfBlockWrite C cfg payload iv
    let off := if cfg.haveHeader then reqOffset + 8 else reqOffset
    ((data.length : Int), (off, data) :: base)

/-- CipherFileIO.cpp `getSize`: pass the backing size through; with a header and
a positive size, forward mode asserts the size is at least HEADER_SIZE and
subtracts 8, reverse mode adds 8. -/
def cfGetSize (cfg : CipherFileCfg) (baseSize : Int) : Except String Int :=
  if cfg.haveHeader && 0 < baseSize then
    if !cfg.reverse then
      if baseSize < 8 then .error "rAssert size >= HEADER_SIZE failed"
      else .ok (baseSize - 8)
    else .ok (baseSize + 8)
  else .ok baseSize

/-- Fold of `fileIV = (fileIV << 8) | buf[i]` over an 8-byte buffer in
CipherFileIO.cpp `initHeader`; the accumulator is a uint64_t and the bytes are
unsigned char. -/
def foldIVBytes (buf : List Nat) : Nat :=
  buf.foldl (fun a b => (a * 256 + b % 256) % 2 ^ 64) 0

/-- Generation loop of CipherFileIO.cpp `initHeader`:
`do { randomize(buf); fileIV = fold(buf); } while (fileIV == 0)` with `draws`
the successive outputs of `cipher->randomize`; a failing randomize (no draw
left) is `-EBADMSG`. -/
def genFileIV : List (List Nat) → Except Int Nat
  | [] => .error (-EBADMSG)
  | d :: rest => if foldIVBytes d = 0 then genFileIV rest else .ok (foldIVBytes d)

/-- CipherFileIO.cpp `initHeader`: when the backing file already holds at least
HEADER_SIZE bytes, decrypt the stored 8 header bytes under `externalIV`, fold
them into `fileIV` and `rAssert(fileIV != 0)`; otherwise draw random bytes
until the folded value is nonzero (writing the encrypted header back when the
base is writable does not affect the resulting `fileIV`).  Returns the new
`fileIV`. -/
def cfInitHeader (C : CipherOps) (externalIV : Nat) (rawSize : Int)
    (stored8 : List Nat) (draws : List (List Nat)) : Except Int Nat :=
  if 8 ≤ rawSize then
    let iv := foldIVBytes (C.streamDec stored8 externalIV)
    if iv = 0 then .error (-EBADMSG) else .ok iv
  else genFileIV draws

/-- CipherFileIO.cpp `writeHeader`: serializes the member `fileIV` big-endian
into an 8-byte buffer with `buf[7-i] = fileIV & 0xff; fileIV >>= 8`, mutating
the member itself: after the eight shifts the member holds `fileIV / 2 ^ 64`,
which is 0 for any 64-bit value.  The buffer is stream-encrypted under
`externalIV` and written at offset 0.  Returns the encrypted header bytes and
the new value of the `fileIV` member. -/
def cfWriteHeader (C : CipherOps) (fileIV externalIV : Nat) : List Nat × Nat :=
  let buf := (List.range 8).map (fun i => fileIV / 2 ^ (8 * (7 - i)) % 256)
  (C.streamEnc buf externalIV, fileIV / 2 ^ 64)

/-! ## Name codecs: StreamNameIO.cpp, BlockNameIO.cpp, NullNameIO.cpp (claims C2, C5) -/

/-- Modelled from the spec: `B256ToB64Bytes` of the missing base64 module,
the byte count of the 8-to-6 bit repacking, `(n * 8 + 5) / 6`. -/
def B256ToB64Bytes (n : Nat) : Nat := (n * 8 + 5) / 6

/-- Modelled from the spec: `B64ToB256Bytes` of the missing base64 module,
`(n * 6) / 8`. -/
def B64ToB256Bytes (n : Nat) : Nat := n * 6 / 8

/-- Modelled from the spec: the externalization performed by the missing base64
module (`changeBase2Inline` 8-to-6 plus `B64ToAscii`, and their inverses), as
an abstract repacking with the base64.h length laws.  `toExt` maps `n` content
bytes to `B256ToB64Bytes n` characters and `fromExt` inverts it. -/
structure Extern where
  toExt : List Nat → List Nat
  fromExt : List Nat → List Nat
  toExtLen : ∀ bs, (toExt bs).length = B256ToB64Bytes bs.length
  fromExt_toExt : ∀ bs, fromExt (toExt bs) = bs

/-- Modelled from the spec: the primitive cipher as consumed by the name
codecs.  `mac16` is the 16-bit checksum `MAC_16(data, key, chainedIV)` (the
chained IV pointer contributes to the checksum when present) and `macChain`
the value the call stores back through the pointer; `streamEnc`/`streamDec`
are `nameEncode`/`nameDecode` and `blockEnc`/`blockDec` are
`blockEncode`/`blockDecode`, all with the key folded in.  The laws are the
interface assumed by the specification: decode inverts encode at the same IV,
lengths are preserved, and the checksum fits 16 bits. -/
structure NameCipher where
  mac16 : List Nat → Option Nat → Nat
  macChain : List Nat → Option Nat → Nat
  streamEnc : List Nat → Nat → List Nat
  streamDec : List Nat → Nat → List Nat
  blockEnc : List Nat → Nat → List Nat
  blockDec : List Nat → Nat → Option (List Nat)
  mac16_lt : ∀ d i, mac16 d i < 2 ^ 16
  streamDec_enc : ∀ d iv, streamDec (streamEnc d iv) iv = d
  streamEnc_len : ∀ d iv, (streamEnc d iv).length = d.length
  blockDec_enc : ∀ d iv, blockDec (blockEnc d iv) iv = some d
  blockEnc_len : ∀ d iv, (blockEnc d iv).length = d.length
  blockDec_len : ∀ d r iv, blockDec d iv = some r → r.length = d.length

/-- NullNameIO.cpp `encodeName`: plain copy of the name. -/
def nullEncodeName (plain : List Nat) : List Nat := plain

/-- NullNameIO.cpp `decodeName`: plain copy of the name. -/
def nullDecodeName (encoded : List Nat) : List Nat := encoded

/-- StreamNameIO.cpp `encodeName`, interface ≥ 1 layout (the current interface
is 2).  `tmpIV` is captured from the chained IV pointer before `MAC_16`
updates it.  The source stores the MAC high byte at `encodedName[0]` and then
stores the MAC low byte also at `encodedName[0]` (instead of index 1), so
index 1 keeps the previous content of the caller's buffer, passed here as
`buf1`.  The name bytes are copied at offset 2, stream-encoded in place with
IV `mac ^ tmpIV`, and the first `length + 2` buffer bytes are externalized.
Returns the encoded name and the updated chained IV. -/
def streamEncodeName (C : NameCipher) (E : Extern) (intf : Nat) (plain : List Nat)
    (iv : Option Nat) (buf1 : Nat) : List Nat × Option Nat :=
  let tmpIV := if iv.isSome && decide (2 ≤ intf) then iv.getD 0 else 0
  let mac := C.mac16 plain iv
  let ivOut := if iv.isSome then some (C.macChain plain iv) else iv
  let stream := [mac % 256, buf1] ++ C.streamEnc plain (mac ^^^ tmpIV)
  (E.toExt stream, ivOut)

/-- StreamNameIO.cpp `decodeName`, interface ≥ 1 layout.  `buffer` is the
caller's output buffer (`plaintextName` with capacity `bufferLength`); the
result triple is (return value or raised error, buffer contents after the
call, chained IV after the call).  The source asserts `length > 2` and
`decodedStreamLen ≤ bufferLength`, throws on `decodedStreamLen ≤ 0`, converts
from base 64, reads the stored 16-bit MAC from bytes 0 and 1, copies the rest
into the output buffer, stream-decodes it in place with IV
`storedMAC ^ tmpIV`, recomputes `MAC_16` over the decoded bytes (updating the
chained IV), and throws a checksum mismatch when it differs from the stored
MAC — after the buffer was already overwritten. -/
def streamDecodeName (C : NameCipher) (E : Extern) (intf : Nat)
    (encoded : List Nat) (iv : Option Nat) (buffer : List Nat) :
    Except String Nat × List Nat × Option Nat :=
  if !(decide (2 < encoded.length)) then (.error "rAssert length > 2 failed", buffer, iv)
  else
    let decLen256 := B64ToB256Bytes encoded.length
    let decodedStreamLen := decLen256 - 2
    if !(decide (decodedStreamLen ≤ buffer.length)) then
      (.error "rAssert decodedStreamLen <= bufferLength failed", buffer, iv)
    else if decodedStreamLen = 0 then (.error "Filename too small to decode", buffer, iv)
    else
      let tmpBuf := E.fromExt encoded
      let mac := Nat.lor (Nat.shiftLeft (tmpBuf.getD 0 0) 8) (tmpBuf.getD 1 0)
      let tmpIV := if iv.isSome && decide (2 ≤ intf) then iv.getD 0 else 0
      let copied := (tmpBuf.drop 2).take decodedStreamLen
      let decoded := C.streamDec copied (mac ^^^ tmpIV)
      let buffer2 := decoded ++ buffer.drop decodedStreamLen
      let mac2 := C.mac16 decoded iv
      let ivOut := if iv.isSome then some (C.macChain decoded iv) else iv
      if mac2 ≠ mac then (.error "checksum mismatch in filename decode", buffer2, ivOut)
      else (.ok decodedStreamLen, buffer2, ivOut)

/-- BlockNameIO.cpp `encodeName` (base64 path; the current interface is 4).
Padding fills the name to a multiple of the cipher block size `bs` (a full
extra block when already aligned), with the pad length as pad byte.  `tmpIV`
is captured before `MAC_16` updates the chained IV; the MAC is computed over
name plus padding, stored big-endian in the two prefix bytes, the name and
padding are block-encoded with IV `mac ^ tmpIV`, and the whole
`length + 2 + padding` bytes are externalized. -/
def blockEncodeName (C : NameCipher) (E : Extern) (intf bs : Nat)
    (plain : List Nat) (iv : Option Nat) : List Nat × Option Nat :=
  let length := plain.length
  let padding0 := bs - length % bs
  let padding := if padding0 = 0 then bs else padding0
  let padded := plain ++ List.replicate padding (padding % 256)
  let tmpIV := if iv.isSome && decide (3 ≤ intf) then iv.getD 0 else 0
  let mac := C.mac16 padded iv
  let ivOut := if iv.isSome then some (C.macChain padded iv) else iv
  let enc := C.blockEnc padded (mac ^^^ tmpIV)
  (E.toExt ([mac / 2 ^ 8 % 256, mac % 256] ++ enc), ivOut)

/-- BlockNameIO.cpp `decodeName` (base64 path).  The result triple is (return
value or raised error, caller buffer contents after the call, chained IV after
the call).  Rejects names shorter than one cipher block, converts from base
64, reads the stored big-endian 16-bit MAC, block-decodes the remainder with
IV `storedMAC ^ tmpIV`, validates the trailing pad byte, asserts
`finalSize < bufferLength`, copies the name and a terminating 0 into the
caller's buffer, then recomputes `MAC_16` over the decoded block (updating
the chained IV) and throws a checksum mismatch when it differs — after the
buffer was already overwritten. -/
def blockDecodeName (C : NameCipher) (E : Extern) (intf bs : Nat)
    (encoded : List Nat) (iv : Option Nat) (buffer : List Nat) :
    Except String Nat × List Nat × Option Nat :=
  let decLen256 := B64ToB256Bytes encoded.length
  let decodedStreamLen := decLen256 - 2
  -- the source test is `decodedStreamLen < _bs` on C ints, where
  -- `decodedStreamLen = decLen256 - 2` may be negative; on Nat this is
  -- `decLen256 < 2 + bs`, avoiding the truncated subtraction
  if decLen256 < 2 + bs then (.error "FileName too small to decode", buffer, iv)
  else
    let tmpBuf := E.fromExt encoded
    let mac := Nat.lor (Nat.shiftLeft (tmpBuf.getD 0 0) 8) (tmpBuf.getD 1 0)
    let tmpIV := if iv.isSome && decide (3 ≤ intf) then iv.getD 0 else 0
    match C.blockDec ((tmpBuf.drop 2).take decodedStreamLen) (mac ^^^ tmpIV) with
    | none => (.error "block decode failed in filename decode", buffer, iv)
    | some dec =>
      let padding := dec.getD (decodedStreamLen - 1) 0
      let finalSize := decodedStreamLen - padding
      if bs < padding ∨ decodedStreamLen < padding then
        (.error "invalid padding size", buffer, iv)
      else if !(decide (finalSize < buffer.length)) then
        (.error "rAssert finalSize < bufferLength failed", buffer, iv)
      else
        let buffer2 := dec.take finalSize ++ [0] ++ buffer.drop (finalSize + 1)
        let mac2 := C.mac16 dec iv
        let ivOut := if iv.isSome then some (C.macChain dec iv) else iv
        if mac2 ≠ mac then (.error "checksum mismatch in filename decode", buffer2, ivOut)
        else (.ok finalSize, buffer2, ivOut)

/-- Concrete externalizer used to evaluate the model: append filler characters
up to the base64 length going out, truncate to the content length coming
back.  It satisfies the Extern laws because
`B64ToB256Bytes (B256ToB64Bytes n) = n`. -/
def extPad : Extern where
  toExt bs := bs ++ List.replicate (B256ToB64Bytes bs.length - bs.length) 0
  fromExt cs := cs.take (B64ToB256Bytes cs.length)
  toExtLen := by
    intro bs
    simp only [List.length_append, List.length_replicate]
    unfold B256ToB64Bytes
    omega
  fromExt_toExt := by
    intro bs
    dsimp only
    have hlen : (bs ++ List.replicate (B256ToB64Bytes bs.length - bs.length) 0).length
        = B256ToB64Bytes bs.length := by
      simp only [List.length_append, List.length_replicate]
      unfold B256ToB64Bytes
      omega
    rw [hlen]
    have hround : B64ToB256Bytes (B256ToB64Bytes bs.length) = bs.length := by
      unfold B256ToB64Bytes B64ToB256Bytes
      omega
    rw [hround]
    rw [List.take_append_of_le_length (le_refl bs.length)]
    exact List.take_length bs

/-- Concrete name-cipher used to evaluate the model: a byte-wise XOR with the
low IV byte for both modes, and a sum-based 16-bit checksum mixing in the
chained IV. -/
def ncXor : NameCipher where
  mac16 d i := (d.sum + i.getD 0 + 1) % 2 ^ 16
  macChain d i := d.sum + i.getD 0 + 1
  streamEnc d iv := d.map (fun b => b ^^^ iv % 256)
  streamDec d iv := d.map (fun b => b ^^^ iv % 256)
  blockEnc d iv := d.map (fun b => b ^^^ iv % 256)
  blockDec d iv := some (d.map (fun b => b ^^^ iv % 256))
  mac16_lt := by intro d i; exact Nat.mod_lt _ (by decide)
  streamDec_enc := by
    intro d iv
    simp [List.map_map, Function.comp_def, Nat.xor_cancel_right]
  streamEnc_len := by intro d iv; simp
  blockDec_enc := by
    intro d iv
    simp [List.map_map, Function.comp_def, Nat.xor_cancel_right]
  blockEnc_len := by intro d iv; simp
  blockDec_len := by
    intro d r iv h
    simp only [Option.some.injEq] at h
    subst h
    simp

/-- Concrete cipher-file-layer primitive used to evaluate the model: XOR with
the low IV byte in every mode. -/
def cfXor : CipherOps where
  blockEnc d iv := d.map (fun b => b ^^^ iv % 256)
  blockDec d iv := d.map (fun b => b ^^^ iv % 256)
  streamEnc d iv := d.map (fun b => b ^^^ iv % 256)
  streamDec d iv := d.map (fun b => b ^^^ iv % 256)

/-! ## DirNode.cpp recursive rename planning (claim C6) -/

/-- Abstract per-component name codec for path walking: `encName` encodes one
plaintext component under a chained IV and returns the ciphertext component
with the updated chained IV; `decName` decodes one ciphertext component under
a chained IV (`none` when the component does not decode). -/
structure PathCodec where
  encName : Nat → Nat → Nat × Nat
  decName : Nat → Nat → Option Nat

/-- NameIO `encodePath` with a chained-IV pointer: encode the components in
order, threading the IV from its initial value (0 at the root); returns the
ciphertext components and the final chained IV. -/
def encodePathIV (M : PathCodec) (comps : List Nat) (iv : Nat) : List Nat × Nat :=
  match comps with
  | [] => ([], iv)
  | c :: rest =>
      let (cn, iv2) := M.encName c iv
      let (cns, ivEnd) := encodePathIV M rest iv2
      (cn :: cns, ivEnd)

mutual

/-- A node of the ciphertext directory tree: a plain file, or a directory with
its listed children keyed by ciphertext component name. -/
inductive CTree where
  | file : CTree
  | dir : CForest → CTree

/-- The children of a ciphertext directory, in listing order. -/
inductive CForest where
  | nil : CForest
  | cons : Nat → CTree → CForest → CForest

end

/-- Entry of the recursive rename list (struct RenameEl of DirNode.cpp), with
paths as component lists. -/
structure RenameElM where
  oldCName : List Nat
  newCName : List Nat
  oldPName : List Nat
  newPName : List Nat
  isDirectory : Bool
deriving DecidableEq, Repr

mutual

/-- DirNode.cpp `genRenameList`, on the subtree at the source path.  `fromP`
and `toP` are the plaintext source and destination paths; the chained IVs are
recomputed by `encodePath` at every (recursive) call, starting from 0; when
they coincide the walk returns success immediately.  Each listed child is
decoded under `fromIV` (skipping undecodable names), re-encoded under `toIV`,
and an entry is built; for a directory child the source recurses BEFORE
appending the entry and tests the raw result of the recursive call: a
successful recursion makes the whole call `return false`, while a failed
recursion falls through to appending the entry.  The accumulator mirrors the
by-reference `renameList`, which keeps entries already pushed when a failure
is reported.  A `file` node at the top stands for `opendir` failing. -/
def genRenameList (M : PathCodec) (fromP toP : List Nat) (t : CTree)
    (acc : List RenameElM) : Bool × List RenameElM :=
  match t with
  | .file => (false, acc)
  | .dir children =>
      let fromPr := encodePathIV M fromP 0
      let toPr := encodePathIV M toP 0
      if fromPr.2 = toPr.2 then (true, acc)
      else genRenameChildren M fromP toP fromPr.1 fromPr.2 toPr.2 children acc

/-- Loop body of `genRenameList` over the directory listing; `sourcePath` is
the ciphertext path of the source directory, `fromIV` and `toIV` the chained
IVs of the source and destination paths. -/
def genRenameChildren (M : PathCodec) (fromP toP sourcePath : List Nat)
    (fromIV toIV : Nat) (children : CForest) (acc : List RenameElM) :
    Bool × List RenameElM :=
  match children with
  | .nil => (true, acc)
  | .cons cn sub rest =>
      match M.decName cn fromIV with
      | none => genRenameChildren M fromP toP sourcePath fromIV toIV rest acc
      | some plain =>
          let newName := (M.encName plain toIV).1
          let isDir := match sub with | .dir _ => true | .file => false
          let ren : RenameElM :=
            { oldCName := sourcePath ++ [cn], newCName := sourcePath ++ [newName],
              oldPName := fromP ++ [plain], newPName := toP ++ [plain],
              isDirectory := isDir }
          if isDir then
            match genRenameList M (fromP ++ [plain]) (toP ++ [plain]) sub acc with
            | (true, acc2) => (false, acc2)
            | (false, acc2) =>
                genRenameChildren M fromP toP sourcePath fromIV toIV rest (acc2 ++ [ren])
          else genRenameChildren M fromP toP sourcePath fromIV toIV rest (acc ++ [ren])

end

/-! ## Context.cpp registry and DirNode.cpp unlink (claim C10) -/

/-- Context.cpp `lookupNode`: the front of the open-files list registered at
the path, `none` when no list is registered. -/
def lookupNode (openFiles : List (List Nat × List Nat)) (p : List Nat) : Option Nat :=
  match openFiles.find? (fun e => e.1 == p) with
  | some e => e.2.head?
  | none => none

/-- The backing `::unlink` syscall on the set of existing ciphertext paths:
remove the path and return 0, or fail with `-ENOENT`. -/
def sysUnlink (backing : List (List Nat)) (cy : List Nat) : Int × List (List Nat) :=
  if backing.contains cy then (0, backing.erase cy)
  else (-ENOENT, backing)

/-- DirNode.cpp `unlink` (the non-Cygwin path): encode the plaintext name,
refuse with `-EBUSY` when the registry holds an open node at the path, and
only otherwise issue the backing unlink on `rootDir + cyName`.  `enc` stands
for `naming->encodePath`; the root prefix is folded into the backing set. -/
def dirUnlink (enc : List Nat → List Nat) (openFiles : List (List Nat × List Nat))
    (backing : List (List Nat)) (p : List Nat) : Int × List (List Nat) :=
  if (lookupNode openFiles p).isSome then (-EBUSY, backing)
  else sysUnlink backing (enc p)

/-- Concrete MAC layer configuration used to evaluate the model: macBytes = 2,
no random bytes, holes off, forceDecode off, byte-sum MAC. -/
def mcSum : MacConfig := ⟨2, 0, false, false, fun l => l.sum⟩

/-- Concrete cipher file layer configuration: forward mode, block size 4, no
header, no holes. -/
def cfgFwd : CipherFileCfg := ⟨4, false, false, false⟩

/-- Concrete cipher file layer configuration: reverse mode with unique IV,
block size 4. -/
def cfgRev : CipherFileCfg := ⟨4, true, true, false⟩

/-- Concrete path codec used to evaluate the rename planner: component names
encode to themselves while the chained IV absorbs each component
(`iv + p + 1`), and every ciphertext component decodes to itself. -/
def pcAdd : PathCodec := ⟨fun p iv => (p, iv + p + 1), fun cn _ => some cn⟩

/-- Ceiling division over ℚ agrees with the C idiom
`(a + d - 1) / d` under truncating division for a nonnegative numerator. -/
theorem tdiv_add_sub_one_eq_ceil (a d : Int) (ha : 0 ≤ a) (hd : 0 < d) :
    (a + d - 1).tdiv d = ⌈(a : ℚ) / (d : ℚ)⌉ := by
  have hnn : (0 : ℤ) ≤ a + d - 1 := by omega
  rw [Int.tdiv_eq_ediv hnn hd.le]
  set k : ℤ := (a + d - 1) / d with hk
  have hl : k * d ≤ a + d - 1 := Int.ediv_mul_le _ (by omega)
  have hu : a + d - 1 < (k + 1) * d := Int.lt_ediv_add_one_mul_self _ hd
  have e1 : (k - 1) * d < a := by nlinarith
  have h3 : a - 1 < k * d := by nlinarith
  have e2 : a ≤ k * d := by
    have := Int.add_one_le_iff.mpr h3
    linarith
  have hdq : (0 : ℚ) < (d : ℚ) := by exact_mod_cast hd
  symm
  rw [Int.ceil_eq_iff]
  constructor
  · rw [show ((k : ℚ) - 1) = ((k - 1 : ℤ) : ℚ) by push_cast; ring]
    rw [lt_div_iff₀ hdq]
    exact_mod_cast e1
  · rw [div_le_iff₀ hdq]
    exact_mod_cast e2

/-- Stripping step on a leading 0x80 byte. -/
theorem stripLeading80_cons128 (l : List Nat) :
    stripLeading80 (128 :: l) = stripLeading80 l := by
  simp [stripLeading80]

/-- Stripping stops at a byte other than 0x80. -/
theorem stripLeading80_stop (b : Nat) (l : List Nat) (h : b ≠ 128) :
    stripLeading80 (b :: l) = b :: l := by
  simp [stripLeading80, h]

/-- Shape of `writeInt` for one-byte values. -/
theorem writeInt_lt7 (v : Nat) (h : v < 2 ^ 7) : writeInt v = [v] := by
  unfold writeInt writeIntDigits
  have h0 : 0x80 + v / 2 ^ 28 % 2 ^ 4 = 128 := by omega
  have h1 : 0x80 + v / 2 ^ 21 % 2 ^ 7 = 128 := by omega
  have h2 : 0x80 + v / 2 ^ 14 % 2 ^ 7 = 128 := by omega
  have h3 : 0x80 + v / 2 ^ 7 % 2 ^ 7 = 128 := by omega
  have h4 : v % 2 ^ 7 = v := by omega
  rw [h0, h1, h2, h3, h4, stripLeading80_cons128, stripLeading80_cons128,
    stripLeading80_cons128, stripLeading80_cons128, stripLeading80_stop _ _ (by omega)]

/-- Shape of `writeInt` for two-byte values. -/
theorem writeInt_lt14 (v : Nat) (hl : 2 ^ 7 ≤ v) (h : v < 2 ^ 14) :
    writeInt v = [0x80 + v / 2 ^ 7 % 2 ^ 7, v % 2 ^ 7] := by
  unfold writeInt writeIntDigits
  have h0 : 0x80 + v / 2 ^ 28 % 2 ^ 4 = 128 := by omega
  have h1 : 0x80 + v / 2 ^ 21 % 2 ^ 7 = 128 := by omega
  have h2 : 0x80 + v / 2 ^ 14 % 2 ^ 7 = 128 := by omega
  rw [h0, h1, h2, stripLeading80_cons128, stripLeading80_cons128,
    stripLeading80_cons128, stripLeading80_stop _ _ (by omega)]

/-- Shape of `writeInt` for three-byte values. -/
theorem writeInt_lt21 (v : Nat) (hl : 2 ^ 14 ≤ v) (h : v < 2 ^ 21) :
    writeInt v = [0x80 + v / 2 ^ 14 % 2 ^ 7, 0x80 + v / 2 ^ 7 % 2 ^ 7, v % 2 ^ 7] := by
  unfold writeInt writeIntDigits
  have h0 : 0x80 + v / 2 ^ 28 % 2 ^ 4 = 128 := by omega
  have h1 : 0x80 + v / 2 ^ 21 % 2 ^ 7 = 128 := by omega
  rw [h0, h1, stripLeading80_cons128, stripLeading80_cons128,
    stripLeading80_stop _ _ (by omega)]

/-- Shape of `writeInt` for four-byte values. -/
theorem writeInt_lt28 (v : Nat) (hl : 2 ^ 21 ≤ v) (h : v < 2 ^ 28) :
    writeInt v = [0x80 + v / 2 ^ 21 % 2 ^ 7, 0x80 + v / 2 ^ 14 % 2 ^ 7,
      0x80 + v / 2 ^ 7 % 2 ^ 7, v % 2 ^ 7] := by
  unfold writeInt writeIntDigits
  have h0 : 0x80 + v / 2 ^ 28 % 2 ^ 4 = 128 := by omega
  rw [h0, stripLeading80_cons128, stripLeading80_stop _ _ (by omega)]

/-- Shape of `writeInt` for five-byte values. -/
theorem writeInt_lt32 (v : Nat) (hl : 2 ^ 28 ≤ v) (h : v < 2 ^ 32) :
    writeInt v = [0x80 + v / 2 ^ 28 % 2 ^ 4, 0x80 + v / 2 ^ 21 % 2 ^ 7,
      0x80 + v / 2 ^ 14 % 2 ^ 7, 0x80 + v / 2 ^ 7 % 2 ^ 7, v % 2 ^ 7] := by
  unfold writeInt writeIntDigits
  rw [stripLeading80_stop _ _ (by omega)]

/-- The readInt loop inverts writeInt on every 32-bit pattern. -/
theorem readIntLoop_writeInt (v : Nat) (hv : v < 2 ^ 32) :
    readIntLoop (writeInt v) 0 = v := by
  rcases Nat.lt_or_ge v (2 ^ 7) with c1 | c1
  · rw [writeInt_lt7 v c1]
    simp only [readIntLoop]
    rw [if_neg (by omega)]
    omega
  rcases Nat.lt_or_ge v (2 ^ 14) with c2 | c2
  · rw [writeInt_lt14 v c1 c2]
    simp only [readIntLoop]
    rw [if_pos (by omega), if_neg (by omega)]
    omega
  rcases Nat.lt_or_ge v (2 ^ 21) with c3 | c3
  · rw [writeInt_lt21 v c2 c3]
    simp only [readIntLoop]
    rw [if_pos (by omega), if_pos (by omega), if_neg (by omega)]
    omega
  rcases Nat.lt_or_ge v (2 ^ 28) with c4 | c4
  · rw [writeInt_lt28 v c3 c4]
    simp only [readIntLoop]
    rw [if_pos (by omega), if_pos (by omega), if_pos (by omega), if_neg (by omega)]
    omega
  · rw [writeInt_lt32 v c4 hv]
    simp only [readIntLoop]
    rw [if_pos (by omega), if_pos (by omega), if_pos (by omega), if_pos (by omega),
      if_neg (by omega)]
    omega

/-- writeInt never emits an empty byte string. -/
theorem writeInt_ne_nil (v : Nat) (hv : v < 2 ^ 32) : writeInt v ≠ [] := by
  rcases Nat.lt_or_ge v (2 ^ 7) with c1 | c1
  · rw [writeInt_lt7 v c1]; simp
  rcases Nat.lt_or_ge v (2 ^ 14) with c2 | c2
  · rw [writeInt_lt14 v c1 c2]; simp
  rcases Nat.lt_or_ge v (2 ^ 21) with c3 | c3
  · rw [writeInt_lt21 v c2 c3]; simp
  rcases Nat.lt_or_ge v (2 ^ 28) with c4 | c4
  · rw [writeInt_lt28 v c3 c4]; simp
  · rw [writeInt_lt32 v c4 hv]; simp

/-- readInt of writeInt: accepted below 2^31, rejected by the sign assertion
above. -/
theorem readInt_writeInt (v : Nat) (hv : v < 2 ^ 32) :
    readInt (writeInt v) =
      if v < 2 ^ 31 then .ok v else .error "rAssert value >= 0 failed" := by
  obtain ⟨b, l, he⟩ : ∃ b l, writeInt v = b :: l := by
    cases hw : writeInt v with
    | nil => exact absurd hw (writeInt_ne_nil v hv)
    | cons b l => exact ⟨b, l, rfl⟩
  rw [he]
  simp only [readInt]
  rw [← he, readIntLoop_writeInt v hv]

/-- C9 (corrected): writeInt emits the 7-bit chunks of the 32-bit value from
most to least significant with the continuation bit on all but the last byte
and leading 0x80 bytes stripped, and readInt inverts it — but only for values
below 2^31: for a value with the top bit set the accumulated C int is
negative, so readInt raises its `value >= 0` assertion instead of returning
the value. -/
theorem writeInt_readInt_varint (v : Nat) (hv : v < 2 ^ 32) :
    (v < 2 ^ 31 → readInt (writeInt v) = .ok v) ∧
    (2 ^ 31 ≤ v → readInt (writeInt v) = .error "rAssert value >= 0 failed") := by
  refine ⟨fun h => ?_, fun h => ?_⟩
  · rw [readInt_writeInt v hv, if_pos h]
  · rw [readInt_writeInt v hv, if_neg (by omega)]

/-- Witness for C9: the roundtrip at 300 and the assertion failure at 2^31. -/
theorem writeInt_readInt_varint_witness :
    readInt (writeInt 300) = .ok 300 ∧
    readInt (writeInt (2 ^ 31)) = .error "rAssert value >= 0 failed" :=
  ⟨(writeInt_readInt_varint 300 (by decide)).1 (by decide),
   (writeInt_readInt_varint (2 ^ 31) (by decide)).2 (by decide)⟩

/-- Counterexample for C9 as stated: for the 32-bit unsigned value 2^31,
readInt applied to the writeInt byte sequence does not return the value. -/
theorem readInt_writeInt_top_bit_cex :
    readInt (writeInt 2147483648) = Except.error "rAssert value >= 0 failed" ∧
    (Except.error "rAssert value >= 0 failed" : Except String Nat) ≠ Except.ok 2147483648 :=
  ⟨rfl, by simp⟩

/-- C8 (confirmed): for every offset o ≥ 0 and header size 0 ≤ h < B, the MAC
layer offset translations satisfy
locWithHeader(o, B, h) = o + ceil(o / (B - h)) * h and
locWithoutHeader(o, B, h) = o - ceil(o / B) * h as exact integer arithmetic. -/
theorem locTranslations_exact (o B h : Int) (ho : 0 ≤ o) (hh : 0 ≤ h) (hB : h < B) :
    locWithHeader o B h = o + ⌈(o : ℚ) / ((B : ℚ) - (h : ℚ))⌉ * h ∧
    locWithoutHeader o B h = o - ⌈(o : ℚ) / (B : ℚ)⌉ * h := by
  constructor
  · unfold locWithHeader roundUpDivide
    rw [tdiv_add_sub_one_eq_ceil o (B - h) ho (by omega)]
    rw [show ((B - h : ℤ) : ℚ) = (B : ℚ) - (h : ℚ) by push_cast; ring]
  · unfold locWithoutHeader roundUpDivide
    rw [tdiv_add_sub_one_eq_ceil o B ho (by omega)]

/-- Witness for C8 at o = 5, B = 4, h = 1. -/
theorem locTranslations_exact_witness :
    locWithHeader 5 4 1 = 5 + ⌈((5 : ℤ) : ℚ) / (((4 : ℤ) : ℚ) - ((1 : ℤ) : ℚ))⌉ * 1 ∧
    locWithoutHeader 5 4 1 = 5 - ⌈((5 : ℤ) : ℚ) / ((4 : ℤ) : ℚ)⌉ * 1 :=
  locTranslations_exact 5 4 1 (by decide) (by decide) (by decide)

/-- C1 (code bug evidence): under the byte-sum MAC with macBytes = 2 the framed
block for payload [1, 2] stores the MAC prefix [3, 0]; reading back that exact
block returns -EBADMSG even though the stored prefix equals the recomputed
one, while blocks with stored prefix [4, 0] (differing from the recomputed
[3, 0]) or with the payload corrupted from [1, 2] to [1, 3] are accepted: the
comparison `fail |= (test & stored)` flags shared bits instead of
differences. -/
theorem macRead_mac_compare_bug :
    macWriteOneBlock mcSum [] [1, 2] = [3, 0, 1, 2] ∧
    macReadOneBlock mcSum [3, 0, 1, 2] = Except.error (-EBADMSG) ∧
    macReadOneBlock mcSum [4, 0, 1, 2] = Except.ok [1, 2] ∧
    [4, 0] ≠ [(3 : Nat), 0] ∧
    macReadOneBlock mcSum [3, 0, 1, 3] = Except.ok [1, 3] :=
  ⟨rfl, rfl, rfl, by simp, rfl⟩

/-- C2 (code bug evidence): the stream codec encodes the one-byte name [1]
under chained IV 0 into [2, 0, 3, 0] — both MAC bytes were written to index 0
and index 1 kept the stale buffer byte 0 — and decoding that encoding throws a
checksum mismatch instead of returning [1].  The block codec and the null
codec round-trip the same name. -/
theorem nameCodec_roundtrip_stream_bug :
    (streamEncodeName ncXor extPad 2 [1] (some 0) 0).1 = [2, 0, 3, 0] ∧
    (streamDecodeName ncXor extPad 2 [2, 0, 3, 0] (some 0) [9, 9]).1
      = Except.error "checksum mismatch in filename decode" ∧
    (blockDecodeName ncXor extPad 4 4
      (blockEncodeName ncXor extPad 4 4 [1] (some 0)).1 (some 0) [9, 9]).1
      = Except.ok 1 ∧
    ((blockDecodeName ncXor extPad 4 4
      (blockEncodeName ncXor extPad 4 4 [1] (some 0)).1 (some 0) [9, 9]).2.1).take 1
      = [1] ∧
    nullDecodeName (nullEncodeName [1]) = [1] :=
  ⟨rfl, rfl, rfl, rfl, rfl⟩

/-- C3 (code bug evidence): a forward-mode read of a 2-byte tail of a 4-byte
block is undefined (streamRead falls off the end of the function without
calling streamDecode), instead of returning the stream-decoded plaintext
[12, 2]; a full-block read block-decodes with IV blockNum XOR fileIV, and the
write direction picks stream for a tail and block for a full block with the
same IV. -/
theorem cfRead_forward_tail_undefined :
    cfReadOneBlock cfXor cfgFwd 5 0 [9, 7] = none ∧
    cfXor.streamDec [9, 7] (0 / 4 ^^^ 5) = [12, 2] ∧
    cfReadOneBlock cfXor cfgFwd 5 4 [9, 7, 6, 5]
      = some (Except.ok (cfXor.blockDec [9, 7, 6, 5] (4 / 4 ^^^ 5))) ∧
    (cfWriteOneBlock cfXor cfgFwd 5 [] 4 [9, 7]).2
      = [(4, cfXor.streamEnc [9, 7] (4 / 4 ^^^ 5))] ∧
    (cfWriteOneBlock cfXor cfgFwd 5 [] 4 [9, 7, 6, 5]).2
      = [(4, cfXor.blockEnc [9, 7, 6, 5] (4 / 4 ^^^ 5))] :=
  ⟨rfl, rfl, rfl, rfl, rfl⟩

/-- The initHeader generation loop only ever returns a nonzero file IV. -/
theorem genFileIV_ok_ne_zero (ds : List (List Nat)) (iv : Nat)
    (h : genFileIV ds = .ok iv) : iv ≠ 0 := by
  induction ds with
  | nil => simp [genFileIV] at h
  | cons d rest ih =>
      simp only [genFileIV] at h
      by_cases hz : foldIVBytes d = 0
      · rw [if_pos hz] at h
        exact ih h
      · rw [if_neg hz] at h
        injection h with h2
        exact h2 ▸ hz

/-- C4 (corrected): a successful initHeader always produces a nonzero fileIV
(read path by the rAssert, generate path by the regeneration loop), but the
header rewrite of writeHeader serializes the member fileIV destructively and
leaves it zero — the invariant does not survive setIV/writeHeader. -/
theorem fileIV_nonzero_amended (C : CipherOps) (eiv : Nat) (rawSize : Int)
    (stored8 : List Nat) (draws : List (List Nat)) (iv fiv : Nat)
    (hinit : cfInitHeader C eiv rawSize stored8 draws = .ok iv)
    (hfiv : fiv < 2 ^ 64) :
    iv ≠ 0 ∧ (cfWriteHeader C fiv eiv).2 = 0 := by
  constructor
  · unfold cfInitHeader at hinit
    by_cases hr : (8 : Int) ≤ rawSize
    · rw [if_pos hr] at hinit
      by_cases hz : foldIVBytes (C.streamDec stored8 eiv) = 0
      · rw [if_pos hz] at hinit
        exact absurd hinit (by simp)
      · rw [if_neg hz] at hinit
        injection hinit with h2
        exact h2 ▸ hz
    · rw [if_neg hr] at hinit
      exact genFileIV_ok_ne_zero draws iv hinit
  · unfold cfWriteHeader
    exact Nat.div_eq_of_lt hfiv

/-- Witness for C4: the read path at a concrete stored header yields the
nonzero folded IV, and writeHeader zeroes a fileIV of 5. -/
theorem fileIV_nonzero_amended_witness :
    (144396693218329611 : Nat) ≠ 0 ∧ (cfWriteHeader cfXor 5 3).2 = 0 :=
  fileIV_nonzero_amended cfXor 3 10 [1, 2, 3, 4, 5, 6, 7, 8] []
    144396693218329611 5 rfl (by decide)

/-- Counterexample for C4 as stated: from the nonzero fileIV 5, the header
rewrite performed by writeHeader leaves fileIV = 0. -/
theorem writeHeader_zeroes_fileIV_cex :
    (cfWriteHeader cfXor 5 3).2 = 0 ∧ (5 : Nat) ≠ 0 :=
  ⟨rfl, by simp⟩

/-- C7 (corrected): in reverse mode with unique IV every single-block write
returns -EPERM with the backing file untouched, and getSize reports the
backing size plus the 8-byte header shift for every positive backing size. -/
theorem reverse_uniqueIV_write_eperm (C : CipherOps) (cfg : CipherFileCfg)
    (fileIV : Nat) (base : List (Nat × List Nat)) (off : Nat)
    (payload : List Nat) (s : Int) (hH : cfg.haveHeader = true)
    (hR : cfg.reverse = true) (hs : 0 < s) :
    cfWriteOneBlock C cfg fileIV base off payload = (-EPERM, base) ∧
    cfGetSize cfg s = .ok (s + 8) := by
  constructor
  · unfold cfWriteOneBlock
    rw [hH, hR]
    simp
  · unfold cfGetSize
    rw [hH, hR]
    simp [hs]

/-- Witness for C7 at a concrete reverse-mode configuration. -/
theorem reverse_uniqueIV_write_eperm_witness :
    cfWriteOneBlock cfXor cfgRev 5 [] 0 [1, 2, 3, 4] = (-EPERM, []) ∧
    cfGetSize cfgRev 10 = .ok (10 + 8) :=
  reverse_uniqueIV_write_eperm cfXor cfgRev 5 [] 0 [1, 2, 3, 4] 10 rfl rfl
    (by decide)

/-- Counterexample for C7 as stated: with an empty backing file, reverse-mode
getSize reports 0, not the backing size plus the 8-byte shift. -/
theorem cfGetSize_empty_reverse_cex :
    cfGetSize cfgRev 0 = Except.ok 0 ∧
    (Except.ok 0 : Except String Int) ≠ Except.ok (0 + 8) :=
  ⟨rfl, by simp⟩

/-- C5 (corrected): every filename decode failure other than the checksum
mismatch — name too small, the assertions, invalid padding, block decode
failure — leaves the caller's output buffer exactly as it was, for both the
block and the stream codec.  (The checksum mismatch is thrown only after the
decoded bytes were copied into the buffer.) -/
theorem decode_failures_before_checksum_keep_buffer (C : NameCipher) (E : Extern)
    (intf bs : Nat) (encoded : List Nat) (iv : Option Nat) (buffer : List Nat)
    (e : String) (he : e ≠ "checksum mismatch in filename decode") :
    ((blockDecodeName C E intf bs encoded iv buffer).1 = .error e →
      (blockDecodeName C E intf bs encoded iv buffer).2.1 = buffer) ∧
    ((streamDecodeName C E intf encoded iv buffer).1 = .error e →
      (streamDecodeName C E intf encoded iv buffer).2.1 = buffer) := by
  constructor
  · simp only [blockDecodeName]
    repeat' split
    all_goals intro h
    all_goals first
      | rfl
      | (injection h with h2; exact absurd h2.symm he)
      | exact absurd h (by simp)
  · simp only [streamDecodeName]
    repeat' split
    all_goals intro h
    all_goals first
      | rfl
      | (injection h with h2; exact absurd h2.symm he)
      | exact absurd h (by simp)

/-- Witness for C5: too-small names fail on both codecs with the buffer
untouched. -/
theorem decode_failures_before_checksum_keep_buffer_witness :
    (blockDecodeName ncXor extPad 4 4 [1] none [9]).2.1 = [9] ∧
    (streamDecodeName ncXor extPad 2 [1] none [9]).2.1 = [9] :=
  ⟨(decode_failures_before_checksum_keep_buffer ncXor extPad 4 4 [1] none [9]
      "FileName too small to decode" (by decide)).1 rfl,
   (decode_failures_before_checksum_keep_buffer ncXor extPad 2 4 [1] none [9]
      "rAssert length > 2 failed" (by decide)).2 rfl⟩

/-- Counterexample for C5 as stated: a block-codec decode that fails with a
checksum mismatch leaves the decoded bytes and a terminator in the caller's
buffer, which differs from its previous content. -/
theorem blockDecode_checksum_clobbers_buffer_cex :
    (blockDecodeName ncXor extPad 4 4 [0, 12, 10, 8, 8, 8, 0, 0] (some 0) [9, 9]).1
      = Except.error "checksum mismatch in filename decode" ∧
    (blockDecodeName ncXor extPad 4 4 [0, 12, 10, 8, 8, 8, 0, 0] (some 0) [9, 9]).2.1
      = [0, 9] ∧
    [0, 9] ≠ [(9 : Nat), 9] :=
  ⟨rfl, rfl, by simp⟩

/-- C6 (code bug evidence): with differing source and destination chained IVs,
a source directory containing one decodable empty subdirectory makes
genRenameList return failure — the successful recursive call is negated into
an abort — while the same directory with a plain-file child succeeds with the
expected single entry. -/
theorem genRenameList_dir_child_aborts :
    genRenameList pcAdd [1] [2]
      (CTree.dir (CForest.cons 5 (CTree.dir CForest.nil) CForest.nil)) []
      = (false, []) ∧
    genRenameList pcAdd [1] [2]
      (CTree.dir (CForest.cons 5 CTree.file CForest.nil)) []
      = (true, [⟨[1, 5], [1, 5], [1, 5], [2, 5], false⟩]) :=
  ⟨rfl, rfl⟩

/-- C10 (confirmed): when the registry holds an open node at the path, unlink
returns -EBUSY and the backing state is untouched; the backing unlink syscall
is issued exactly when no node is registered at the path. -/
theorem dirUnlink_busy_spec (enc : List Nat → List Nat)
    (openFiles : List (List Nat × List Nat)) (backing : List (List Nat))
    (p : List Nat) :
    ((lookupNode openFiles p).isSome →
        dirUnlink enc openFiles backing p = (-EBUSY, backing)) ∧
    ((lookupNode openFiles p).isSome = false →
        dirUnlink enc openFiles backing p = sysUnlink backing (enc p)) := by
  constructor
  · intro h
    unfold dirUnlink
    rw [if_pos h]
  · intro h
    unfold dirUnlink
    rw [if_neg (by simp [h])]

/-- Witness for C10 at a concrete registry with one open node. -/
theorem dirUnlink_busy_spec_witness :
    dirUnlink (fun q => q) [([1], [7])] [[1]] [1] = (-EBUSY, [[1]]) ∧
    dirUnlink (fun q => q) [] [[1]] [1] = sysUnlink [[1]] [1] :=
  ⟨(dirUnlink_busy_spec (fun q => q) [([1], [7])] [[1]] [1]).1 rfl,
   (dirUnlink_busy_spec (fun q => q) [] [[1]] [1]).2 rfl⟩
